import Mathlib

/-!
Verification of the RISRAL session-orchestration engine: a shallow embedding
of its plan/task parser (`src/orchestrator/state.ts`), reputation memory
store (memory loader module), session state persistence, prompt assembly,
and the memory confidence-update rules, with theorems settling the spec's
testable properties.

The TypeScript parser works by JavaScript regular expressions.  We embed
them with a small backtracking regex engine whose result list is ordered by
JS backtracking priority (leftmost match, greedy quantifiers prefer longer,
lazy quantifiers prefer shorter, alternation prefers the left branch); the
head of the list is the match JS returns.  The engine is fuelled to stay
structurally recursive; the fuel bound is generous for the pattern sizes
used here.
-/

namespace Risral

/-! ## Character classes and string helpers (JS semantics, ASCII range) -/

/-- JS `\s` on the ASCII range (space, tab, newline, carriage return,
vertical tab, form feed).  The source text is agent-produced markdown, for
which this is the relevant fragment of the Unicode class. -/
def isJsWs (c : Char) : Bool :=
  c == ' ' || c == '\t' || c == '\n' || c == '\r' || c == '\x0b' || c == '\x0c'

/-- JS `\d`. -/
def isJsDigit (c : Char) : Bool := c.isDigit

/-- JS `String.prototype.trim` (strips `\s` from both ends). -/
def trimJs (l : List Char) : List Char :=
  ((l.dropWhile isJsWs).reverse.dropWhile isJsWs).reverse

/-- JS `.replace(/\*\*/g, "")`: drop every (non-overlapping, left-to-right)
occurrence of two consecutive asterisks. -/
def removeDoubleStar : List Char → List Char
  | '*' :: '*' :: rest => removeDoubleStar rest
  | c :: rest => c :: removeDoubleStar rest
  | [] => []

/-- JS `.replace(/`/g, "")`: drop every backtick. -/
def removeBacktick (l : List Char) : List Char :=
  l.filter (fun c => !(c == '`'))

/-- JS `String.prototype.split("\n")`. -/
def splitLines (l : List Char) : List (List Char) := l.splitOn '\n'

/-- JS `parseInt(digits, 10)` on a nonempty digit string. -/
def natOfDigits (l : List Char) : Nat :=
  l.foldl (fun n c => 10 * n + (c.toNat - '0'.toNat)) 0

/-- JS `String.prototype.slice(s, e)` for `0 ≤ s ≤ e`. -/
def listSlice (l : List Char) (s e : Nat) : List Char := (l.take e).drop s

/-- JS `String.prototype.lastIndexOf("###", i)`: the largest index `j ≤ i`
at which `"###"` occurs, if any. -/
def lastIndexOf3 (sec : List Char) (i : Nat) : Option Nat :=
  (((List.range (i + 1)).filter
    (fun j => List.isPrefixOf "###".toList (sec.drop j)))).getLast?

/-! ## A backtracking regex engine

Terms mirror the JS patterns one constructor per construct.  `run` returns
the list of (remaining input, captured groups) pairs in JS backtracking
priority order; `List.head?` of it is the JS match. -/

/-- Regex terms: `tok` a character class, `lit` a literal, `opt`/`star`
carry their greediness (`true` = greedy), `look` a lookahead `(?=...)`,
`grp` a numbered capturing group, `eos` the `$` anchor. -/
inductive RE where
  | eps : RE
  | tok : (Char → Bool) → RE
  | lit : List Char → RE
  | seq : RE → RE → RE
  | alt : RE → RE → RE
  | opt : Bool → RE → RE
  | star : Bool → RE → RE
  | look : RE → RE
  | grp : Nat → RE → RE
  | eos : RE

/-- Captured groups: group number paired with the captured characters. -/
abbrev Caps := List (Nat × List Char)

/-- `X+` with greediness `g`. -/
def rePlus (g : Bool) (a : RE) : RE := RE.seq a (RE.star g a)

/-- Run a regex term against the input, producing all outcomes in
backtracking priority order.  A star iteration that consumes nothing stops
the repetition (the JS empty-match rule). -/
def run : Nat → RE → List Char → Caps → List (List Char × Caps)
  | 0, _, _, _ => []
  | _ + 1, RE.eps, l, cs => [(l, cs)]
  | _ + 1, RE.tok p, l, cs =>
    match l with
    | [] => []
    | c :: rest => if p c then [(rest, cs)] else []
  | _ + 1, RE.lit s, l, cs =>
    if List.isPrefixOf s l then [(l.drop s.length, cs)] else []
  | fuel + 1, RE.seq a b, l, cs =>
    (run fuel a l cs).flatMap (fun rc => run fuel b rc.1 rc.2)
  | fuel + 1, RE.alt a b, l, cs =>
    run fuel a l cs ++ run fuel b l cs
  | fuel + 1, RE.opt g a, l, cs =>
    if g then run fuel a l cs ++ [(l, cs)] else (l, cs) :: run fuel a l cs
  | fuel + 1, RE.star g a, l, cs =>
    let step := (run fuel a l cs).flatMap (fun rc =>
      if rc.1.length < l.length then run fuel (RE.star g a) rc.1 rc.2 else [rc])
    if g then step ++ [(l, cs)] else (l, cs) :: step
  | fuel + 1, RE.look a, l, cs =>
    if (run fuel a l cs).isEmpty then [] else [(l, cs)]
  | fuel + 1, RE.grp n a, l, cs =>
    (run fuel a l cs).map (fun rc => (rc.1, (n, l.take (l.length - rc.1.length)) :: rc.2))
  | _ + 1, RE.eos, l, cs => if l.isEmpty then [(l, cs)] else []

/-- Fuel bound: generous for the small fixed patterns used by the parser. -/
def engineFuel (l : List Char) : Nat := 100 * l.length + 200

/-- One match of a `g`-mode scan: captures plus absolute start/end. -/
structure MatchInfo where
  caps : Caps
  startPos : Nat
  endPos : Nat
deriving Repr, DecidableEq

/-- The `regex.exec` loop with the `g` flag: leftmost matches, each next
search resuming at the previous match's end (an empty match advances by
one, the JS rule). -/
def gExecAux (re : RE) (fuel0 : Nat) : Nat → List Char → Nat → List MatchInfo
  | 0, _, _ => []
  | outer + 1, l, pos =>
    match (run fuel0 re l []).head? with
    | some rc =>
      let k := l.length - rc.1.length
      if k = 0 then
        { caps := rc.2, startPos := pos, endPos := pos } ::
          gExecAux re fuel0 outer (l.drop 1) (pos + 1)
      else
        { caps := rc.2, startPos := pos, endPos := pos + k } ::
          gExecAux re fuel0 outer rc.1 (pos + k)
    | none =>
      match l with
      | [] => []
      | _ :: t => gExecAux re fuel0 outer t (pos + 1)

/-- All `g`-mode matches of `re` in `l`. -/
def gExec (re : RE) (l : List Char) : List MatchInfo :=
  gExecAux re (engineFuel l) (l.length + 1) l 0

/-- `String.prototype.match` without `g`: the leftmost match's captures. -/
def findFirstCaps (re : RE) (fuel0 : Nat) : List Char → Option Caps
  | [] => ((run fuel0 re [] []).head?).map (fun rc => rc.2)
  | c :: t =>
    match (run fuel0 re (c :: t) []).head? with
    | some rc => some rc.2
    | none => findFirstCaps re fuel0 t

/-! ## The plan/task parser (`parsePlanTasks`, src/orchestrator/state.ts)

File access is modelled by passing the `plan.md` content as
`Option (List Char)` (`none` = `existsSync` false). -/

/-- A parsed task (interface `Task` of the orchestrator's core types; the
optional `completedAt` is absent at parse time and omitted here). -/
structure Task where
  index : Nat
  title : String
  description : String
  status : String
deriving Repr, DecidableEq

def wsTok : RE := RE.tok isJsWs
def digitTok : RE := RE.tok isJsDigit
/-- `.` without the `s` flag: any character but a newline. -/
def dotTok : RE := RE.tok (fun c => !(c == '\n'))
/-- `[\s\S]` or `.` under the `s` flag. -/
def anyTok : RE := RE.tok (fun _ => true)
def nlTok : RE := RE.tok (fun c => c == '\n')
def starTok : RE := RE.tok (fun c => c == '*')
/-- `\*{0,2}` (greedy). -/
def rep02 (a : RE) : RE := RE.opt true (RE.seq a (RE.opt true a))

/-- `/## Tasks\s*\n([\s\S]*?)(?=\n## [^#]|\n---|\s*$)/` — the Tasks-section
extractor. -/
def sectionRE : RE :=
  RE.seq (RE.lit "## Tasks".toList)
    (RE.seq (RE.star true wsTok)
      (RE.seq nlTok
        (RE.seq (RE.grp 1 (RE.star false anyTok))
          (RE.look (RE.alt (RE.seq (RE.lit "\n## ".toList) (RE.tok (fun c => !(c == '#'))))
            (RE.alt (RE.lit "\n---".toList)
              (RE.seq (RE.star true wsTok) RE.eos)))))))

/-- `/###\s*(\d+)\.\s+(.+)/g` — strategy 1's sub-heading pattern. -/
def headingRE : RE :=
  RE.seq (RE.lit "###".toList)
    (RE.seq (RE.star true wsTok)
      (RE.seq (RE.grp 1 (rePlus true digitTok))
        (RE.seq (RE.tok (fun c => c == '.'))
          (RE.seq (rePlus true wsTok)
            (RE.grp 2 (rePlus true dotTok))))))

/-- `[—\-:]` — the title/description separator class of strategy 2. -/
def sepTok : RE := RE.tok (fun c => c == '—' || c == '-' || c == ':')

/-- Strategy 2's pattern after the leading `(?:^|\n)`:
`\s*(\d+)\.\s+\*{0,2}(.+?)\*{0,2}\s*(?:[—\-:]\s*)?(.+?)(?=\n\s*\d+\.|\n\s*$|$)`
(flags `gs`, so `.` matches newlines). -/
def inlineTail : RE :=
  RE.seq (RE.star true wsTok)
    (RE.seq (RE.grp 1 (rePlus true digitTok))
      (RE.seq (RE.tok (fun c => c == '.'))
        (RE.seq (rePlus true wsTok)
          (RE.seq (rep02 starTok)
            (RE.seq (RE.grp 2 (rePlus false anyTok))
              (RE.seq (rep02 starTok)
                (RE.seq (RE.star true wsTok)
                  (RE.seq (RE.opt true (RE.seq sepTok (RE.star true wsTok)))
                    (RE.seq (RE.grp 3 (rePlus false anyTok))
                      (RE.look
                        (RE.alt
                          (RE.seq nlTok (RE.seq (RE.star true wsTok)
                            (RE.seq (rePlus true digitTok) (RE.tok (fun c => c == '.')))))
                          (RE.alt
                            (RE.seq nlTok (RE.seq (RE.star true wsTok) RE.eos))
                            RE.eos))))))))))))

/-- Strategy 2's full pattern at position 0: `(?:^|\n)` tries `^` first
(matching nothing), then a newline. -/
def inlineStartRE : RE := RE.seq (RE.opt false nlTok) inlineTail

/-- Strategy 2's full pattern at positions past 0, where `^` cannot match. -/
def inlineContRE : RE := RE.seq nlTok inlineTail

/-- `/^\s*\d+\.\s+(.+)/` — strategy 3's bare numbered-line pattern,
anchored at the start of one line. -/
def bareRE : RE :=
  RE.seq (RE.star true wsTok)
    (RE.seq (rePlus true digitTok)
      (RE.seq (RE.tok (fun c => c == '.'))
        (RE.seq (rePlus true wsTok)
          (RE.grp 1 (rePlus true dotTok)))))

/-- `line.match(/^\s*\d+\.\s+(.+)/)`: group 1 of the anchored match. -/
def bareMatch (line : List Char) : Option (List Char) :=
  match (run (engineFuel line) bareRE line []).head? with
  | some rc => some ((rc.2.lookup 1).getD [])
  | none => none

/-- `plan.match(/## Tasks\s*\n(...)/)`: group 1 (the Tasks section). -/
def findTasksSection (plan : List Char) : Option (List Char) :=
  (findFirstCaps sectionRE (engineFuel plan) plan).map
    (fun cs => (cs.lookup 1).getD [])

/-- One strategy-1 heading match, as the source's `headingPositions` entries:
the parsed ordinal, the cleaned title and the match's end position. -/
structure HeadingPos where
  num : Nat
  title : List Char
  pos : Nat
deriving Repr, DecidableEq

/-- Strategy 1's scan of the Tasks section: `headingPattern.exec` in a loop,
each entry keeping `parseInt(m[1])`, the trimmed title with `**` and
backticks stripped, and `m.index + m[0].length`. -/
def strategy1Heads (sec : List Char) : List HeadingPos :=
  (gExec headingRE sec).map (fun m =>
    { num := natOfDigits ((m.caps.lookup 1).getD [])
      title := removeBacktick (removeDoubleStar (trimJs ((m.caps.lookup 2).getD [])))
      pos := m.endPos })

/-- Strategy 1's task construction: each task's description runs from its
heading match's end to `lastIndexOf("###", nextHeading.pos)` (or section
end for the last); an empty description falls back to the title.  JS
`lastIndexOf` returning `-1` would make `slice(start, -1)` stop one short
of the end; that case is unreachable because every heading match starts
with `###`. -/
def str1Build (sec : List Char) : List HeadingPos → List Task → List Task
  | [], tasks => tasks
  | h :: rest, tasks =>
    let e := match rest with
      | [] => sec.length
      | h2 :: _ =>
        match lastIndexOf3 sec h2.pos with
        | some j => j
        | none => sec.length - 1
    let d := trimJs (listSlice sec h.pos e)
    let d := if d.isEmpty then h.title else d
    str1Build sec rest
      (tasks ++ [{ index := tasks.length, title := ⟨h.title⟩,
                   description := ⟨d⟩, status := "pending" }])

/-- Strategy 2's `inlinePattern.exec` loop: the capture lists of all
`g`-mode matches of the inline pattern over the Tasks section. -/
def strategy2Matches (sec : List Char) : List Caps :=
  match (run (engineFuel sec) inlineStartRE sec []).head? with
  | some rc =>
    let k := sec.length - rc.1.length
    if k = 0 then
      rc.2 :: (gExecAux inlineContRE (engineFuel sec) sec.length (sec.drop 1) 1).map
        (fun m => m.caps)
    else
      rc.2 :: (gExecAux inlineContRE (engineFuel sec) (sec.length + 1) rc.1 k).map
        (fun m => m.caps)
  | none =>
    match sec with
    | [] => []
    | _ :: t =>
      (gExecAux inlineContRE (engineFuel sec) (sec.length + 1) t 1).map
        (fun m => m.caps)

/-- Strategy 2's pushes: `{index: tasks.length, title: m[2].trim(),
description: m[3].trim(), status: "pending"}` per match. -/
def str2Build (items : List Caps) (tasks : List Task) : List Task :=
  items.foldl (fun ts cs =>
    ts ++ [{ index := ts.length,
             title := ⟨trimJs ((cs.lookup 2).getD [])⟩,
             description := ⟨trimJs ((cs.lookup 3).getD [])⟩,
             status := "pending" }]) tasks

/-- Strategy 3's line loop: each line matching the bare pattern pushes a
task whose title and description are both `m[1].trim().replace(/\*\*/g,"")`. -/
def str3Build (lines : List (List Char)) (tasks : List Task) : List Task :=
  lines.foldl (fun ts ln =>
    match bareMatch ln with
    | some m =>
      ts ++ [{ index := ts.length,
               title := ⟨removeDoubleStar (trimJs m)⟩,
               description := ⟨removeDoubleStar (trimJs m)⟩,
               status := "pending" }]
    | none => ts) tasks

/-- `parsePlanTasks` (src/orchestrator/state.ts): extract the `## Tasks`
section and run the three cascading strategies, first success wins. -/
def parsePlanTasks (planFile : Option (List Char)) : List Task :=
  match planFile with
  | none => []
  | some plan =>
    match findTasksSection plan with
    | none => []
    | some sec =>
      let heads := strategy1Heads sec
      if heads.length > 0 then
        str1Build sec heads []
      else
        let t2 := str2Build (strategy2Matches sec) []
        if t2.length = 0 then str3Build (splitLines sec) t2 else t2

/-! ## The reputation memory store (memory loader module)

JS numbers carrying confidence scores are modelled as `ℚ` (the stored
values are short decimals).  `JSON.parse` of the two store files is a
platform builtin; its outcome is modelled by `StoreFile`: a missing file,
a file whose parse throws, or the parsed typed value. -/

inductive MemoryType where
  | observation | pattern | decision | false_belief | drift_event
deriving Repr, DecidableEq

inductive MemoryStatus where
  | active | deprecated | challenged
deriving Repr, DecidableEq

structure MemoryConfidence where
  score : ℚ
  reasoning : String
deriving Repr, DecidableEq

structure Memory where
  id : String
  type : MemoryType
  content : String
  context : String
  source : String
  confidence : MemoryConfidence
  reinforcement_count : Nat
  last_reinforced : String
  created : String
  tags : List String
  related_memories : List String
  status : MemoryStatus
deriving Repr, DecidableEq

structure MemoriesFile where
  schema_version : String
  project : String
  created : String
  last_updated : String
  memories : List Memory
deriving Repr, DecidableEq

structure Pattern where
  id : String
  category : String
  content : String
  countermeasure : String
  confidence : MemoryConfidence
  reinforcement_count : Nat
  last_reinforced : String
  created : String
  origin : String
  status : MemoryStatus
deriving Repr, DecidableEq

structure PatternsFile where
  schema_version : String
  description : String
  last_updated : String
  patterns : List Pattern
deriving Repr, DecidableEq

/-- A JSON value: the result space of a successful `JSON.parse`.  The
loaders' `try`/`catch` wraps only the parse itself, so everything they do
with a parsed value — property accesses, truthiness tests, `.filter` —
runs on an arbitrary `Json`, not on a well-typed record. -/
inductive Json where
  | null : Json
  | bool : Bool → Json
  | num : ℚ → Json
  | str : String → Json
  | arr : List Json → Json
  | obj : List (String × Json) → Json

/-- Why a modelled loader run returns no string: `typeError` — the JS
execution throws an uncaught `TypeError` past the caller; `unmodelled` —
the execution leaves the fragment this model follows (it would continue
on coerced `undefined`/`NaN` values, and may or may not throw later); no
claim concerns the unmodelled runs. -/
inductive JsOutcomeErr where
  | typeError (msg : String)
  | unmodelled (msg : String)
deriving Repr, DecidableEq

/-- Property access `v.key` on a non-null (and defined) receiver — never
throws: objects look the key up, strings and arrays expose `length`,
other primitives own no property read here; absent keys give `undefined`
(`none`). -/
def jsMemberNonNull (v : Json) (key : String) : Option Json :=
  match v with
  | .null => none
  | .bool _ => none
  | .num _ => none
  | .str s => if key = "length" then some (.num s.length) else none
  | .arr xs => if key = "length" then some (.num xs.length) else none
  | .obj fields => fields.lookup key

/-- Property access `v.key` where `v` may be `null`: JS throws a
`TypeError` on a null receiver. -/
def jsMember (v : Json) (key : String) : Except JsOutcomeErr (Option Json) :=
  match v with
  | .null =>
    .error (.typeError ("Cannot read properties of null (reading '" ++ key ++ "')"))
  | _ => .ok (jsMemberNonNull v key)

/-- Property access `v.key` where `v` may also be `undefined` (`none`):
JS throws on an undefined receiver too. -/
def jsMemberOpt (v : Option Json) (key : String) : Except JsOutcomeErr (Option Json) :=
  match v with
  | none =>
    .error (.typeError ("Cannot read properties of undefined (reading '" ++ key ++ "')"))
  | some w => jsMember w key

/-- JS truthiness of a possibly-undefined value. -/
def jsTruthy : Option Json → Bool
  | none => false
  | some .null => false
  | some (.bool b) => b
  | some (.num q) => !(q == 0)
  | some (.str s) => !(s == "")
  | some (.arr _) => true
  | some (.obj _) => true

/-- JS strict equality `v === 0`. -/
def jsStrictEqZero : Option Json → Bool
  | some (.num q) => q == 0
  | _ => false

/-- JS strict equality `v === s` against a string literal. -/
def jsStrictEqStr (v : Option Json) (s : String) : Bool :=
  match v with
  | some (.str t) => t == s
  | _ => false

/-- The three outcomes of `existsSync` + `JSON.parse` on a store file:
the file is missing, the parse throws (caught), or it yields a `Json`
value of arbitrary shape. -/
inductive StoreFile where
  | missing : StoreFile
  | malformed : StoreFile
  | parsed : Json → StoreFile

/-- `MEMORY_TYPE_PRIORITY` — fixed severity order, `false_belief` first. -/
def MEMORY_TYPE_PRIORITY : MemoryType → Nat
  | .false_belief => 0
  | .drift_event => 1
  | .decision => 2
  | .pattern => 3
  | .observation => 4

/-- `isMemoryIncluded`: not deprecated and confidence at least 0.2. -/
def isMemoryIncluded (mem : Memory) : Bool :=
  if mem.status = .deprecated then false
  else if mem.confidence.score < 0.2 then false
  else true

/-- `isPatternIncluded`: not deprecated. -/
def isPatternIncluded (pat : Pattern) : Bool :=
  if pat.status = .deprecated then false else true

/-- `memoryPriorityScore`: `confidence.score * (reinforcement_count + 1)`. -/
def memoryPriorityScore (mem : Memory) : ℚ :=
  mem.confidence.score * (mem.reinforcement_count + 1)

/-- `compareMemories`: type priority first, then priority score
descending (a negative result sorts `a` before `b`). -/
def compareMemories (a b : Memory) : ℚ :=
  let typeDiff : ℚ :=
    (MEMORY_TYPE_PRIORITY a.type : ℚ) - (MEMORY_TYPE_PRIORITY b.type : ℚ)
  if typeDiff ≠ 0 then typeDiff
  else memoryPriorityScore b - memoryPriorityScore a

/-- `comparePatterns`: confidence descending. -/
def comparePatterns (a b : Pattern) : ℚ :=
  b.confidence.score - a.confidence.score

/-- The order `Array.prototype.sort(compareMemories)` sorts into: `a` may
precede `b` when the comparator is nonpositive.  ES2019 `sort` is stable;
it is modelled by the stable `List.insertionSort`. -/
def memBefore (a b : Memory) : Prop := compareMemories a b ≤ 0

instance : DecidableRel memBefore :=
  fun a b => inferInstanceAs (Decidable (compareMemories a b ≤ 0))

def patBefore (a b : Pattern) : Prop := comparePatterns a b ≤ 0

instance : DecidableRel patBefore :=
  fun a b => inferInstanceAs (Decidable (comparePatterns a b ≤ 0))

/-- The filtered, sorted memory list that `loadMemories` formats. -/
def rankedMemories (ms : List Memory) : List Memory :=
  List.insertionSort memBefore (ms.filter isMemoryIncluded)

/-- The filtered, sorted pattern list that `loadPatterns` formats. -/
def rankedPatterns (ps : List Pattern) : List Pattern :=
  List.insertionSort patBefore (ps.filter isPatternIncluded)

def memoryTypeLabel : MemoryType → String
  | .false_belief => "FALSE BELIEF"
  | .drift_event => "DRIFT EVENT"
  | .decision => "DECISION"
  | .pattern => "PATTERN"
  | .observation => "OBSERVATION"

/-- `(score * 100).toFixed(0)` — the confidence percentage, rounded to the
nearest integer, as a string. -/
def percentString (score : ℚ) : String := toString (round (score * 100))

/-- `formatMemory`: one markdown block per memory. -/
def formatMemory (mem : Memory) : String :=
  let statusTag := if mem.status = .challenged then " [CHALLENGED]" else ""
  let confidence := percentString mem.confidence.score ++ "%"
  let reinforced :=
    if mem.reinforcement_count > 0 then
      " | reinforced " ++ toString mem.reinforcement_count ++ "x"
    else ""
  "### " ++ mem.id ++ ": " ++ memoryTypeLabel mem.type ++ statusTag ++
    "\n**Confidence:** " ++ confidence ++ reinforced ++ " | **Source:** " ++ mem.source ++
    "\n**Context:** " ++ mem.context ++ "\n\n" ++ mem.content

/-- `formatPattern`: one markdown block per pattern. -/
def formatPattern (pat : Pattern) : String :=
  let confidence := percentString pat.confidence.score ++ "%"
  let reinforced :=
    if pat.reinforcement_count > 0 then
      " | reinforced " ++ toString pat.reinforcement_count ++ "x"
    else ""
  "### " ++ pat.id ++ ": " ++ pat.category.toUpper ++
    "\n**Confidence:** " ++ confidence ++ reinforced ++ " | **Origin:** " ++ pat.origin ++
    "\n\n" ++ pat.content ++ "\n\n**Countermeasure:** " ++ pat.countermeasure

/-- The store's `type` strings as the typed `MemoryType`. -/
def decodeMemoryType : String → Option MemoryType
  | "observation" => some .observation
  | "pattern" => some .pattern
  | "decision" => some .decision
  | "false_belief" => some .false_belief
  | "drift_event" => some .drift_event
  | _ => none

/-- `status` of a record that passed the `=== "deprecated"` filter: the
only later observation of it is the strict `=== "challenged"` comparison
in the formatter, so every other value (including a missing or non-string
one) behaves exactly like `"active"`. -/
def decodeStatusNonDeprecated (v : Option Json) : MemoryStatus :=
  if jsStrictEqStr v "challenged" then .challenged else .active

/-- A nonnegative integral JS number as a `Nat` (the shape under which
`count > 0`, `${count}` and `count + 1` agree with the typed model). -/
def decodeCount : Json → Option Nat
  | .num q => if q.den = 1 ∧ 0 ≤ q.num then some q.num.toNat else none
  | _ => none

/-- One step of `data.memories.filter(isMemoryIncluded)` on a raw
element: `none` = excluded, `some m` = included and decoded for the later
sort and format stages.  Mirrors the callback's access order exactly: a
`null` element throws at `mem.status`; past the `=== "deprecated"` test,
a missing or null `confidence` throws at `mem.confidence.score`.
Included elements are decoded to the typed `Memory` on the fields the
sort and format stages read (the others — `reasoning`, timestamps,
`tags`, `related_memories` — are never read again and are defaulted);
included elements outside that shape (non-numeric score, non-string
formatted fields, fractional or negative count) leave the model as
`unmodelled` — JS would continue on `undefined`/`NaN` coercions. -/
def filterMemoryElem (e : Json) : Except JsOutcomeErr (Option Memory) := do
  match e with
  | .null => .error (.typeError "Cannot read properties of null (reading 'status')")
  | _ =>
    let status := jsMemberNonNull e "status"
    if jsStrictEqStr status "deprecated" then return none
    let score ← jsMemberOpt (jsMemberNonNull e "confidence") "score"
    match score with
    | some (.num q) =>
      if q < 0.2 then return none
      match jsMemberNonNull e "id", jsMemberNonNull e "type",
            jsMemberNonNull e "content", jsMemberNonNull e "context",
            jsMemberNonNull e "source", jsMemberNonNull e "reinforcement_count" with
      | some (.str id), some (.str ty), some (.str content), some (.str context),
        some (.str source), some rc =>
        match decodeMemoryType ty, decodeCount rc with
        | some mty, some n =>
          return some
            { id := id, type := mty, content := content, context := context,
              source := source, confidence := { score := q, reasoning := "" },
              reinforcement_count := n, last_reinforced := "", created := "",
              tags := [], related_memories := [],
              status := decodeStatusNonDeprecated status }
        | _, _ => .error (.unmodelled "included memory with unmodelled type or count")
      | _, _, _, _, _, _ =>
        .error (.unmodelled "included memory with non-string formatted fields")
    | _ => .error (.unmodelled "included memory without a numeric confidence.score")

/-- The whole filter pass, elements left to right, first throw wins. -/
def filterMemories : List Json → Except JsOutcomeErr (List Memory)
  | [] => .ok []
  | e :: rest => do
    let kept ← filterMemoryElem e
    let tail ← filterMemories rest
    match kept with
    | some m => .ok (m :: tail)
    | none => .ok tail

/-- `loadMemories`: load, filter, sort, format.  The source's
`try`/`catch` covers only `JSON.parse`, so `.missing` and `.malformed`
return the signal strings, while a successfully parsed value flows into
untyped accesses that can throw uncaught `TypeError`s past the caller:
`data.memories` on a null root, `.filter(...)` on a truthy non-array
`memories` field, and the per-element accesses in the filter callback. -/
def loadMemories (file : StoreFile) : Except JsOutcomeErr String := do
  match file with
  | .missing => return "*No memories on file.*"
  | .malformed => return "*Failed to parse memories.json.*"
  | .parsed data =>
    let mems ← jsMember data "memories"
    if !(jsTruthy mems) then return "*No memories on file.*"
    let len ← jsMemberOpt mems "length"
    if jsStrictEqZero len then return "*No memories on file.*"
    match mems with
    | some (.arr elems) =>
      let included ← filterMemories elems
      if included.length = 0 then
        return "*All memories are deprecated or below confidence threshold.*"
      let sorted := List.insertionSort memBefore included
      return "**" ++ toString included.length ++ " active memories** (" ++
        toString (elems.length - included.length) ++ " excluded)\n\n" ++
        String.intercalate "\n\n---\n\n" (sorted.map formatMemory)
    | _ => .error (.typeError "data.memories.filter is not a function")

/-- `data.patterns.filter(isPatternIncluded)`: the callback reads only
`pat.status`, so just a `null` element throws here; every other element
is kept or dropped with no further access (the `included.length === 0`
signal is decided before any deeper field is touched). -/
def filterPatternElems : List Json → Except JsOutcomeErr (List Json)
  | [] => .ok []
  | e :: rest =>
    match e with
    | .null => .error (.typeError "Cannot read properties of null (reading 'status')")
    | _ => do
      let tail ← filterPatternElems rest
      if jsStrictEqStr (jsMemberNonNull e "status") "deprecated" then .ok tail
      else .ok (e :: tail)

/-- Decode one included pattern for the sort and format stages.  Those
stages read `confidence.score` (the comparator, and the confidence line
of every formatted block) and call `category.toUpperCase()`, so an
included pattern with a missing or null `confidence` — or a non-string
`category` — always throws an uncaught `TypeError` before `loadPatterns`
returns.  Fields never read again are defaulted; included patterns
outside the typed shape otherwise leave the model as `unmodelled`. -/
def decodePatternElem (e : Json) : Except JsOutcomeErr Pattern := do
  let score ← jsMemberOpt (jsMemberNonNull e "confidence") "score"
  match jsMemberNonNull e "category" with
  | some (.str category) =>
    match score with
    | some (.num q) =>
      match jsMemberNonNull e "id", jsMemberNonNull e "content",
            jsMemberNonNull e "countermeasure", jsMemberNonNull e "origin",
            jsMemberNonNull e "reinforcement_count" with
      | some (.str id), some (.str content), some (.str cm), some (.str origin),
        some rc =>
        match decodeCount rc with
        | some n =>
          return { id := id, category := category, content := content,
                   countermeasure := cm,
                   confidence := { score := q, reasoning := "" },
                   reinforcement_count := n, last_reinforced := "", created := "",
                   origin := origin,
                   status := decodeStatusNonDeprecated (jsMemberNonNull e "status") }
        | none => .error (.unmodelled "included pattern with unmodelled count")
      | _, _, _, _, _ =>
        .error (.unmodelled "included pattern with non-string formatted fields")
    | _ => .error (.unmodelled "included pattern without a numeric confidence.score")
  | _ => .error (.typeError "pat.category.toUpperCase is not a function")

def decodePatterns : List Json → Except JsOutcomeErr (List Pattern)
  | [] => .ok []
  | e :: rest => do
    let p ← decodePatternElem e
    let tail ← decodePatterns rest
    .ok (p :: tail)

/-- `loadPatterns`: the pattern analogue of `loadMemories`, with the same
uncaught-`TypeError` paths after a successful parse (null root, truthy
non-array `patterns` field, null elements, and included patterns whose
sort/format accesses throw). -/
def loadPatterns (file : StoreFile) : Except JsOutcomeErr String := do
  match file with
  | .missing => return "*No behavioral patterns on file.*"
  | .malformed => return "*Failed to parse patterns.json.*"
  | .parsed data =>
    let pats ← jsMember data "patterns"
    if !(jsTruthy pats) then return "*No behavioral patterns on file.*"
    let len ← jsMemberOpt pats "length"
    if jsStrictEqZero len then return "*No behavioral patterns on file.*"
    match pats with
    | some (.arr elems) =>
      let includedRaw ← filterPatternElems elems
      if includedRaw.length = 0 then return "*All patterns are deprecated.*"
      let included ← decodePatterns includedRaw
      let sorted := List.insertionSort patBefore included
      return "**" ++ toString included.length ++ " active patterns**\n\n" ++
        String.intercalate "\n\n---\n\n" (sorted.map formatPattern)
    | _ => .error (.typeError "data.patterns.filter is not a function")

/-! ## Session state persistence (`loadState` / `saveState`)

The persisted `state.json` holds one `OrchestratorState` record.  The
platform `JSON.stringify`/`JSON.parse` round trip of this fixed record
shape is modelled as the identity, so the file is an
`Option OrchestratorState` (`none` = `existsSync` false).  Each call to
`new Date().toISOString()` is passed in as an explicit `now` string (the
fresh-state branch calls it twice in the source; the two strings can only
agree or differ by milliseconds and no claim depends on that). -/

structure OrchestratorState where
  phase : String
  taskIndex : Nat
  totalTasks : Nat
  planApproved : Bool
  startedAt : String
  lastUpdated : String
deriving Repr, DecidableEq

/-- `loadState`: parse the persisted record, or create fresh state. -/
def loadState (file : Option OrchestratorState) (now : String) : OrchestratorState :=
  match file with
  | some s => s
  | none =>
    { phase := "planning", taskIndex := 0, totalTasks := 0,
      planApproved := false, startedAt := now, lastUpdated := now }

/-- `saveState`: sets `state.lastUpdated` to the current time, then writes
the record. -/
def saveState (state : OrchestratorState) (now : String) : Option OrchestratorState :=
  some { state with lastUpdated := now }

/-! ## Prompt assembly (`assembleCrossCheckPrompt`, src/orchestrator/prompt.ts)

`readFile` returns `""` for a missing file, so every input file is a plain
`String`; the JS `x || "fallback"` on strings is `orEmpty`.
`resolve(dir, name)` for a relative name under an absolute directory is
directory, slash, name. -/

structure PromptFiles where
  claudeMd : String
  crossCheckMandate : String
  projectIntent : String
  memoriesJson : String
  patternsJson : String
  backbrief : String
  backbriefFeedback : String
  planMd : String
  intentMd : String
  sessionDir : String

/-- JS `s || fallback` on strings: the fallback replaces the empty string. -/
def orEmpty (s fallback : String) : String := if s = "" then fallback else s

/-- `assembleCrossCheckPrompt`: cross-check mandate + intents + raw store
files + the plan under review.  Deliberately does not read `CLAUDE.md`. -/
def assembleCrossCheckPrompt (f : PromptFiles) : String :=
  f.crossCheckMandate ++
  "\n\n---\n\n# CURRENT SESSION: CROSS-CHECK REVIEW\n\nYou are the adversarial cross-check agent. Review the primary agent's planning output below.\n\n## Project Intent\n\n" ++
  orEmpty f.projectIntent "No project intent on file." ++
  "\n\n## Session Intent\n\n" ++
  orEmpty f.intentMd "No session intent recorded." ++
  "\n\n## Current Reputation Store\n\n```json\n" ++
  f.memoriesJson ++
  "\n```\n\n## Current Portable Patterns\n\n```json\n" ++
  f.patternsJson ++
  "\n```\n\n## Primary Agent's Planning Output\n\n" ++
  f.planMd ++
  "\n\n## Instructions\n\nEvaluate the planning output on all six dimensions from your mandate. For each dimension, produce a finding with cited evidence and a score action.\n\nWrite your complete findings to: " ++
  (f.sessionDir ++ "/" ++ "cross-check.md") ++
  "\n\nWrite any reputation score updates directly to the memories.json and patterns.json files as specified in your mandate. You have direct authority to update these files.\n\nEnd with a summary recommendation: APPROVE, REVISE, or ESCALATE."

/-- `assemblePlanningPrompt`: the primary role's planning prompt, which
does start with the operating-rules document `CLAUDE.md`. -/
def assemblePlanningPrompt (f : PromptFiles) : String :=
  f.claudeMd ++
  "\n\n---\n\n# CURRENT SESSION: PHASE 1b — PLANNING\n\nYou have already completed your backbrief and received the human's feedback. Now produce a plan.\n\n## Project Intent\n\n" ++
  orEmpty f.projectIntent "No project intent on file." ++
  "\n\n## Your Reputation Store (Project Memories)\n\n```json\n" ++
  f.memoriesJson ++
  "\n```\n\n## Portable Behavioral Patterns\n\n```json\n" ++
  f.patternsJson ++
  "\n```\n\n## Your Backbrief (from Phase 1a)\n\n" ++
  orEmpty f.backbrief "No backbrief found." ++
  "\n\n## Human's Feedback on Your Backbrief\n\n" ++
  orEmpty f.backbriefFeedback "No feedback provided — proceed with your understanding." ++
  "\n\n## Instructions\n\n1. Read and internalize the operating framework, your backbrief, and the human's feedback.\n2. Explore at least two approaches internally. For each, think through: what it optimizes for, what it sacrifices, what could go wrong, and what it assumes about the future.\n3. **Pick the best approach.** You are the technical authority. Use the intent, the human's feedback, your reputation store, and your exploration to make the call. Do NOT present multiple options to the human — that is deferral, not engineering.\n4. Present your chosen approach as a concrete plan with clear reasoning for why you chose it.\n\n**You are deciding, not presenting a menu.** The human defined the intent. You are the engineer. If you explored three approaches and one is clearly better given the context, commit to it. If two are genuinely equivalent, pick one and explain what tipped the balance. The only reason to present options to the human is if the choice depends on information you cannot determine from context (e.g., a business priority the human hasn't stated).\n\nWhen your plan is complete, write it to: " ++
  (f.sessionDir ++ "/" ++ "plan.md") ++
  "\n\nYour plan MUST include:\n- **## Approach** — what you chose and why (1-2 paragraphs, not a comparison table)\n- **## Tasks** — a numbered list of discrete tasks that can be executed independently, each with a clear title and description\n- **## Success Criteria** — using the must-have / should-have / could-have / must-not-have format from the framework\n\n**You are being judged.** An adversarial cross-check agent will review your planning output and update your reputation scores. Deferring decisions to the human when you have enough context to decide is scored as a failure mode."

/-! ## The confidence update rules -/

/-- Modelled from the spec: the reinforcement update
`confidence' = confidence + 0.1 * (1 - confidence)`.  The updates are
applied by the external cross-check agent (the repository only states the
rule in its prompt text and mandate), so the executable rule is taken from
the spec's formula. -/
def reinforceUpdate (c : ℚ) : ℚ := c + 0.1 * (1 - c)

/-- Modelled from the spec: the contradiction update
`confidence' = confidence * 0.8` (same provenance as `reinforceUpdate`). -/
def contradictionUpdate (c : ℚ) : ℚ := c * 0.8

/-! ## Task re-indexing (claim C1) -/

/-- Positions and stored indices agree throughout a task list. -/
def TasksIndexed (ts : List Task) : Prop :=
  ∀ i (h : i < ts.length), ts[i].index = i

theorem tasksIndexed_nil : TasksIndexed [] := by
  intro i h
  simp at h

theorem tasksIndexed_push {ts : List Task} (h : TasksIndexed ts) {t : Task}
    (ht : t.index = ts.length) : TasksIndexed (ts ++ [t]) := by
  intro i hi
  rcases Nat.lt_or_ge i ts.length with hlt | hge
  · rw [List.getElem_append_left hlt]
    exact h i hlt
  · have hlen : i = ts.length := by
      simp only [List.length_append, List.length_singleton] at hi
      omega
    rw [List.getElem_concat_length ts t i hlen, ht, hlen]

theorem str1Build_indexed (sec : List Char) (hs : List HeadingPos) :
    ∀ ts : List Task, TasksIndexed ts → TasksIndexed (str1Build sec hs ts) := by
  induction hs with
  | nil => intro ts h; simpa [str1Build] using h
  | cons hd tl ih =>
    intro ts h
    simp only [str1Build]
    exact ih _ (tasksIndexed_push h rfl)

theorem str2Build_indexed (items : List Caps) :
    ∀ ts : List Task, TasksIndexed ts → TasksIndexed (str2Build items ts) := by
  induction items with
  | nil => intro ts h; simpa [str2Build] using h
  | cons c cs ih =>
    intro ts h
    simp only [str2Build, List.foldl_cons] at ih ⊢
    exact ih _ (tasksIndexed_push h rfl)

theorem str3Build_indexed (lines : List (List Char)) :
    ∀ ts : List Task, TasksIndexed ts → TasksIndexed (str3Build lines ts) := by
  induction lines with
  | nil => intro ts h; simpa [str3Build] using h
  | cons ln rest ih =>
    intro ts h
    simp only [str3Build, List.foldl_cons] at ih ⊢
    cases hbm : bareMatch ln with
    | none => simp only [hbm]; exact ih _ h
    | some m => simp only [hbm]; exact ih _ (tasksIndexed_push h rfl)

theorem parsePlanTasks_indexed (planFile : Option (List Char)) :
    TasksIndexed (parsePlanTasks planFile) := by
  unfold parsePlanTasks
  split
  · exact tasksIndexed_nil
  · split
    · exact tasksIndexed_nil
    · dsimp only
      split
      · exact str1Build_indexed _ _ _ tasksIndexed_nil
      · split
        · exact str3Build_indexed _ _ (str2Build_indexed _ _ tasksIndexed_nil)
        · exact str2Build_indexed _ _ tasksIndexed_nil

/-- C1: for every plan document, the task sequence returned by
`parsePlanTasks` satisfies `tasks[i].index == i` at every position `i`,
whatever ordinal numbers (duplicated or out of order included) the source
text carries. -/
theorem parse_reindexes (planFile : Option (List Char)) (i : Nat)
    (h : i < (parsePlanTasks planFile).length) :
    (parsePlanTasks planFile)[i].index = i :=
  parsePlanTasks_indexed planFile i h

/-- A heading-style plan used as a concrete instance below. -/
def planHeading : List Char := "## Tasks\n### 1. Set up database\n\nDo it\n".toList

/-- C1 witness: the indexing property evaluated on a concrete plan. -/
theorem parse_reindexes_witness :
    ∃ h : 0 < (parsePlanTasks (some planHeading)).length,
      ((parsePlanTasks (some planHeading)).get ⟨0, h⟩).index = 0 :=
  ⟨by decide, parse_reindexes (some planHeading) 0 (by decide)⟩

/-! ## Parser fallback (claim C2) -/

theorem str3Build_length_le (lines : List (List Char)) :
    ∀ ts : List Task, ts.length ≤ (str3Build lines ts).length := by
  induction lines with
  | nil => intro ts; simp [str3Build]
  | cons ln rest ih =>
    intro ts
    simp only [str3Build, List.foldl_cons] at ih ⊢
    cases hbm : bareMatch ln with
    | none => exact ih ts
    | some m =>
      calc ts.length ≤ (ts ++ [_]).length := by simp
        _ ≤ _ := ih _

theorem str3Build_pushes (lines : List (List Char)) :
    ∀ ts : List Task, (∃ ln ∈ lines, (bareMatch ln).isSome) →
      ts.length < (str3Build lines ts).length := by
  induction lines with
  | nil =>
    intro ts h
    rcases h with ⟨ln, hmem, _⟩
    simp at hmem
  | cons ln rest ih =>
    intro ts h
    simp only [str3Build, List.foldl_cons] at ih ⊢
    cases hbm : bareMatch ln with
    | some m =>
      calc ts.length < (ts ++ [_]).length := by simp
        _ ≤ _ := str3Build_length_le rest _
    | none =>
      rcases h with ⟨l0, hmem, hsome⟩
      rcases List.mem_cons.mp hmem with heq | hmem2
      · rw [heq, hbm] at hsome
        simp at hsome
      · exact ih ts ⟨l0, hmem2, hsome⟩

/-- C2 (amended): if heading-style extraction (strategy 1) finds at least
one heading, the parser's result is exactly the strategy-1 tasks —
strategies 2 and 3 contribute nothing; and if strategy 1 finds none while
some line of the extracted Tasks section matches the bare numbered-line
pattern `^\s*\d+\.\s+(.+)`, the parser returns at least one task.  (The
claim as stated ranges over lines of the whole input and over the weaker
pattern `^\s*\d+\.\s+`; both readings fail on the code — see the
counterexample.) -/
theorem parser_fallback (plan sec : List Char)
    (hsec : findTasksSection plan = some sec) :
    ((strategy1Heads sec).length > 0 →
      parsePlanTasks (some plan) = str1Build sec (strategy1Heads sec) [])
    ∧ ((strategy1Heads sec).length = 0 →
      (splitLines sec).any (fun ln => (bareMatch ln).isSome) = true →
      parsePlanTasks (some plan) ≠ []) := by
  constructor
  · intro h1
    unfold parsePlanTasks
    dsimp only
    rw [hsec]
    dsimp only
    rw [if_pos h1]
  · intro h1 h2
    unfold parsePlanTasks
    dsimp only
    rw [hsec]
    dsimp only
    rw [if_neg (by omega)]
    by_cases h3 : (str2Build (strategy2Matches sec) []).length = 0
    · rw [if_pos h3]
      rcases List.any_eq_true.mp h2 with ⟨ln, hmem, hsome⟩
      have hlt := str3Build_pushes (splitLines sec)
        (str2Build (strategy2Matches sec) []) ⟨ln, hmem, hsome⟩
      intro hc
      rw [hc] at hlt
      simp at hlt
    · rw [if_neg h3]
      intro hc
      exact h3 (by rw [hc]; rfl)

/-- A plan whose only bare numbered line sits outside the Tasks section. -/
def planNoSec : List Char := "## Tasks\nnothing here\n\n## Other\n1. foo\n".toList

/-- C2 counterexample: on this plan the Tasks section is extracted,
strategy 1 yields zero tasks, the input does contain a line matching
`^\s*\d+\.\s+` (the line `1. foo`, which the strategy-3 matcher accepts),
and yet the parser returns the empty sequence — the bare line lies outside
the `## Tasks` section, which is all the strategies ever scan. -/
theorem parser_fallback_counterexample :
    findTasksSection planNoSec = some ("nothing here\n".toList) ∧
    strategy1Heads ("nothing here\n".toList) = [] ∧
    (splitLines planNoSec).any (fun ln => (bareMatch ln).isSome) = true ∧
    parsePlanTasks (some planNoSec) = [] := by decide

/-- A bare numbered plan: strategies 1 and 2 both fail on its section. -/
def planBare : List Char := "## Tasks\n1. x".toList

/-- C2 witness: both amended branches evaluated at concrete plans. -/
theorem parser_fallback_witness :
    parsePlanTasks (some planHeading) =
      str1Build ("### 1. Set up database\n\nDo it".toList)
        (strategy1Heads ("### 1. Set up database\n\nDo it".toList)) [] ∧
    parsePlanTasks (some planBare) ≠ [] :=
  ⟨(parser_fallback planHeading ("### 1. Set up database\n\nDo it".toList)
      (by decide)).1 (by decide),
   (parser_fallback planBare ("1. x".toList) (by decide)).2 (by decide) (by decide)⟩

/-! ## Bare fallback (claim C8) -/

theorem str3Build_map_spec (lines : List (List Char)) :
    ∀ ts : List Task,
      (str3Build lines ts).map (fun t => (t.title, t.description)) =
        ts.map (fun t => (t.title, t.description)) ++
        (lines.filterMap bareMatch).map
          (fun m => (String.mk (removeDoubleStar (trimJs m)),
                     String.mk (removeDoubleStar (trimJs m)))) := by
  induction lines with
  | nil => intro ts; simp [str3Build]
  | cons ln rest ih =>
    intro ts
    simp only [str3Build, List.foldl_cons] at ih ⊢
    cases hbm : bareMatch ln with
    | none => simp [hbm, ih ts]
    | some m =>
      simp only [hbm, List.filterMap_cons, ih (ts ++ [_])]
      simp

/-- C8 (amended): when strategies 1 and 2 both yield zero tasks, the
parser's result is strategy 3's, and each line of the Tasks section
matching `^\s*\d+\.\s+(.+)` becomes one task whose title and description
are identical — both equal to the capture after the ordinal, trimmed and
with `**` stripped (not the full source line, and lines with nothing after
`ordinal.` produce no task: see the counterexample). -/
theorem bare_fallback (plan sec : List Char)
    (hsec : findTasksSection plan = some sec)
    (h1 : (strategy1Heads sec).length = 0)
    (h2 : str2Build (strategy2Matches sec) [] = []) :
    parsePlanTasks (some plan) = str3Build (splitLines sec) [] ∧
    (parsePlanTasks (some plan)).map (fun t => (t.title, t.description)) =
      ((splitLines sec).filterMap bareMatch).map
        (fun m => (String.mk (removeDoubleStar (trimJs m)),
                   String.mk (removeDoubleStar (trimJs m)))) := by
  have hmain : parsePlanTasks (some plan) = str3Build (splitLines sec) [] := by
    unfold parsePlanTasks
    dsimp only
    rw [hsec]
    dsimp only
    rw [if_neg (by omega), h2]
    simp
  refine ⟨hmain, ?_⟩
  rw [hmain, str3Build_map_spec]
  simp

/-- C8 counterexample: on the plan `## Tasks\n1. x` both early strategies
yield nothing and the bare fallback produces one task, but its title is
`x` — the capture after the ordinal — not the full source line `1. x` the
claim promises. -/
theorem bare_fallback_counterexample :
    strategy1Heads ("1. x".toList) = [] ∧
    str2Build (strategy2Matches ("1. x".toList)) [] = [] ∧
    (parsePlanTasks (some planBare)).map Task.title = ["x"] ∧
    (splitLines ("1. x".toList)).filterMap bareMatch = ["x".toList] ∧
    ¬ ("x" : String) = "1. x" := by decide

/-- C8 witness: the amended statement evaluated on the bare plan. -/
theorem bare_fallback_witness :
    parsePlanTasks (some planBare) = str3Build (splitLines ("1. x".toList)) [] ∧
    (parsePlanTasks (some planBare)).map (fun t => (t.title, t.description)) =
      ((splitLines ("1. x".toList)).filterMap bareMatch).map
        (fun m => (String.mk (removeDoubleStar (trimJs m)),
                   String.mk (removeDoubleStar (trimJs m)))) :=
  bare_fallback planBare ("1. x".toList) (by decide) (by decide) (by decide)

/-! ## Memory ranking (claim C3) -/

theorem memBefore_iff (a b : Memory) :
    memBefore a b ↔
      (MEMORY_TYPE_PRIORITY a.type < MEMORY_TYPE_PRIORITY b.type ∨
       (MEMORY_TYPE_PRIORITY a.type = MEMORY_TYPE_PRIORITY b.type ∧
        memoryPriorityScore b ≤ memoryPriorityScore a)) := by
  unfold memBefore compareMemories
  set pa := MEMORY_TYPE_PRIORITY a.type with hpa
  set pb := MEMORY_TYPE_PRIORITY b.type with hpb
  by_cases h : ((pa : ℚ) - (pb : ℚ)) ≠ 0
  · rw [if_pos h]
    have hne : pa ≠ pb := by
      intro he
      apply h
      rw [he]
      ring
    constructor
    · intro hle
      left
      have hq : (pa : ℚ) ≤ (pb : ℚ) := by linarith
      have hn : pa ≤ pb := by exact_mod_cast hq
      omega
    · rintro (hlt | ⟨heq, _⟩)
      · have hq : (pa : ℚ) < (pb : ℚ) := by exact_mod_cast hlt
        linarith
      · exact absurd heq hne
  · rw [if_neg h]
    push_neg at h
    have heq : pa = pb := by
      have hq : (pa : ℚ) = (pb : ℚ) := by linarith
      exact_mod_cast hq
    constructor
    · intro hle
      exact Or.inr ⟨heq, by linarith⟩
    · rintro (hlt | ⟨_, hle⟩)
      · omega
      · linarith

instance : IsTotal Memory memBefore := by
  constructor
  intro a b
  rw [memBefore_iff, memBefore_iff]
  rcases Nat.lt_trichotomy (MEMORY_TYPE_PRIORITY a.type) (MEMORY_TYPE_PRIORITY b.type)
    with h | h | h
  · exact Or.inl (Or.inl h)
  · rcases le_total (memoryPriorityScore b) (memoryPriorityScore a) with hp | hp
    · exact Or.inl (Or.inr ⟨h, hp⟩)
    · exact Or.inr (Or.inr ⟨h.symm, hp⟩)
  · exact Or.inr (Or.inl h)

instance : IsTrans Memory memBefore := by
  constructor
  intro a b c hab hbc
  rw [memBefore_iff] at hab hbc ⊢
  rcases hab with h1 | ⟨h1, hp1⟩ <;> rcases hbc with h2 | ⟨h2, hp2⟩
  · exact Or.inl (by omega)
  · exact Or.inl (by omega)
  · exact Or.inl (by omega)
  · exact Or.inr ⟨by omega, by linarith⟩

/-- C3: in the ranked output `loadMemories` formats, for two included
memories of the same type, the one with the strictly larger priority score
`confidence * (reinforcement_count + 1)` comes first; and a `false_belief`
always precedes any `pattern` or `observation`, whatever their scores. -/
theorem memory_ranking (ms : List Memory)
    (i j : Fin (rankedMemories ms).length) :
    (((rankedMemories ms).get i).type = ((rankedMemories ms).get j).type →
      memoryPriorityScore ((rankedMemories ms).get j) <
        memoryPriorityScore ((rankedMemories ms).get i) → i < j)
    ∧ (((rankedMemories ms).get i).type = MemoryType.false_belief →
      (((rankedMemories ms).get j).type = MemoryType.pattern ∨
       ((rankedMemories ms).get j).type = MemoryType.observation) → i < j) := by
  have hs : List.Pairwise memBefore (rankedMemories ms) :=
    List.sorted_insertionSort memBefore _
  rw [List.pairwise_iff_get] at hs
  constructor
  · intro htype hpr
    rcases lt_trichotomy i j with h | h | h
    · exact h
    · exfalso
      rw [h] at hpr
      exact lt_irrefl _ hpr
    · exfalso
      have hji := hs j i h
      rw [memBefore_iff] at hji
      have hty : MEMORY_TYPE_PRIORITY ((rankedMemories ms).get j).type =
          MEMORY_TYPE_PRIORITY ((rankedMemories ms).get i).type := by rw [htype]
      rcases hji with hlt | ⟨_, hle⟩
      · omega
      · linarith
  · intro hi hj
    rcases lt_trichotomy i j with h | h | h
    · exact h
    · exfalso
      rw [← h, hi] at hj
      rcases hj with hj | hj <;> simp at hj
    · exfalso
      have hji := hs j i h
      rw [memBefore_iff, hi] at hji
      rcases hj with hj | hj <;> rw [hj] at hji <;>
        simp [MEMORY_TYPE_PRIORITY] at hji

/-- The spec's ranking scenario: a low-priority false belief and a highly
reinforced observation. -/
def demoFalseBelief : Memory :=
  { id := "mem-001", type := .false_belief,
    content := "Believed the API layer was stateless.",
    context := "planning", source := "cross-check",
    confidence := { score := 0.3, reasoning := "single observation" },
    reinforcement_count := 0, last_reinforced := "2025-03-01",
    created := "2025-03-01", tags := [], related_memories := [],
    status := .active }

def demoObservation : Memory :=
  { id := "mem-002", type := .observation,
    content := "Prefers small, reviewable commits.",
    context := "execution", source := "cross-check",
    confidence := { score := 0.9, reasoning := "seen repeatedly" },
    reinforcement_count := 5, last_reinforced := "2025-03-01",
    created := "2025-03-01", tags := [], related_memories := [],
    status := .active }

def demoMemories : List Memory := [demoObservation, demoFalseBelief]

/-- C3 witness: on the scenario store the false belief (priority 0.3)
precedes the observation (priority 5.4). -/
theorem memory_ranking_witness :
    ∃ h0 : 0 < (rankedMemories demoMemories).length,
      ∃ h1 : 1 < (rankedMemories demoMemories).length,
        (⟨0, h0⟩ : Fin (rankedMemories demoMemories).length) < ⟨1, h1⟩ := by
  have h0 : 0 < (rankedMemories demoMemories).length := by with_unfolding_all decide
  have h1 : 1 < (rankedMemories demoMemories).length := by with_unfolding_all decide
  exact ⟨h0, h1,
    (memory_ranking demoMemories ⟨0, h0⟩ ⟨1, h1⟩).2
      (by with_unfolding_all rfl) (Or.inr (by with_unfolding_all rfl))⟩

/-! ## Store filtering (claims C6, C7, C10) -/

theorem isMemoryIncluded_spec (m : Memory) (h : isMemoryIncluded m = true) :
    m.status ≠ MemoryStatus.deprecated ∧ (0.2 : ℚ) ≤ m.confidence.score := by
  unfold isMemoryIncluded at h
  by_cases h1 : m.status = MemoryStatus.deprecated
  · rw [if_pos h1] at h
    simp at h
  · rw [if_neg h1] at h
    by_cases h2 : m.confidence.score < 0.2
    · rw [if_pos h2] at h
      simp at h
    · exact ⟨h1, le_of_not_lt h2⟩

/-- A well-shaped raw store record, as `JSON.parse` would produce it. -/
def demoMemoryJson : Json :=
  Json.obj
    [("id", .str "mem-001"), ("type", .str "false_belief"),
     ("content", .str "Believed the API layer was stateless."),
     ("context", .str "planning"), ("source", .str "cross-check"),
     ("confidence", .obj [("score", .num 0.3), ("reasoning", .str "single observation")]),
     ("reinforcement_count", .num 0), ("last_reinforced", .str "2025-03-01"),
     ("created", .str "2025-03-01"), ("tags", .arr []),
     ("related_memories", .arr []), ("status", .str "active")]

/-- C6: the no-throw claim holds for a missing file and for content whose
`JSON.parse` throws (the signal strings), and the well-shaped path
formats normally — but it fails for valid-JSON, wrong-shape store
content: the `try`/`catch` covers only `JSON.parse`, so a file containing
`null` throws an uncaught `TypeError` at `data.memories`, and
`{"memories": 5}` throws at `data.memories.filter(...)` (likewise for
`patterns.json`), both escaping past the caller. -/
theorem store_corruption_bug :
    loadMemories StoreFile.missing = .ok "*No memories on file.*" ∧
    loadMemories StoreFile.malformed = .ok "*Failed to parse memories.json.*" ∧
    loadPatterns StoreFile.missing = .ok "*No behavioral patterns on file.*" ∧
    loadPatterns StoreFile.malformed = .ok "*Failed to parse patterns.json.*" ∧
    loadMemories (StoreFile.parsed Json.null) =
      .error (JsOutcomeErr.typeError
        "Cannot read properties of null (reading 'memories')") ∧
    loadMemories (StoreFile.parsed (Json.obj [("memories", Json.num 5)])) =
      .error (JsOutcomeErr.typeError "data.memories.filter is not a function") ∧
    loadPatterns (StoreFile.parsed Json.null) =
      .error (JsOutcomeErr.typeError
        "Cannot read properties of null (reading 'patterns')") ∧
    loadPatterns (StoreFile.parsed (Json.obj [("patterns", Json.num 5)])) =
      .error (JsOutcomeErr.typeError "data.patterns.filter is not a function") ∧
    loadMemories (StoreFile.parsed (Json.obj [("memories", Json.arr [demoMemoryJson])])) =
      .ok ("**1 active memories** (0 excluded)\n\n### mem-001: FALSE BELIEF\n" ++
        "**Confidence:** 30% | **Source:** cross-check\n**Context:** planning\n\n" ++
        "Believed the API layer was stateless.") := by
  refine ⟨rfl, rfl, rfl, rfl, ?_, ?_, ?_, ?_, ?_⟩ <;> with_unfolding_all rfl

/-- C7: everything the formatted output ranks is non-deprecated, and every
included memory clears the 0.2 confidence floor. -/
theorem formatted_excludes (ms : List Memory) (ps : List Pattern)
    (m : Memory) (p : Pattern)
    (hm : m ∈ rankedMemories ms) (hp : p ∈ rankedPatterns ps) :
    m.status ≠ MemoryStatus.deprecated ∧ (0.2 : ℚ) ≤ m.confidence.score ∧
      p.status ≠ MemoryStatus.deprecated := by
  have hm2 : m ∈ ms.filter isMemoryIncluded :=
    ((List.perm_insertionSort memBefore _).mem_iff).mp hm
  have hp2 : p ∈ ps.filter isPatternIncluded :=
    ((List.perm_insertionSort patBefore _).mem_iff).mp hp
  obtain ⟨hs, hc⟩ := isMemoryIncluded_spec m (List.mem_filter.mp hm2).2
  refine ⟨hs, hc, ?_⟩
  have hpi := (List.mem_filter.mp hp2).2
  unfold isPatternIncluded at hpi
  by_cases h1 : p.status = MemoryStatus.deprecated
  · rw [if_pos h1] at hpi
    simp at hpi
  · exact h1

/-- A seeded demo pattern for the filtering witness. -/
def demoPattern : Pattern :=
  { id := "pat-001", category := "deferral",
    content := "Defers decisions back to the human.",
    countermeasure := "Commit to one approach and justify it.",
    confidence := { score := 0.7, reasoning := "seeded" },
    reinforcement_count := 1, last_reinforced := "2025-03-01",
    created := "2025-03-01", origin := "seeded", status := .active }

/-- C7 witness: the demo records pass the filters. -/
theorem formatted_excludes_witness :
    demoFalseBelief.status ≠ MemoryStatus.deprecated ∧
      (0.2 : ℚ) ≤ demoFalseBelief.confidence.score ∧
      demoPattern.status ≠ MemoryStatus.deprecated :=
  formatted_excludes demoMemories [demoPattern] demoFalseBelief demoPattern
    (by with_unfolding_all decide) (by with_unfolding_all decide)

/-- C10: a challenged memory at or above the 0.2 floor is included — only
deprecation excludes a record — and its formatted block carries the
`[CHALLENGED]` tag in its header line. -/
theorem challenged_included (ms : List Memory) (m : Memory)
    (hs : m.status = MemoryStatus.challenged)
    (hc : (0.2 : ℚ) ≤ m.confidence.score)
    (hm : m ∈ ms) :
    m ∈ rankedMemories ms ∧
      ∃ pre post : String, formatMemory m = pre ++ ("[CHALLENGED]" ++ post) := by
  constructor
  · apply ((List.perm_insertionSort memBefore _).mem_iff).mpr
    apply List.mem_filter.mpr
    refine ⟨hm, ?_⟩
    unfold isMemoryIncluded
    rw [if_neg (by rw [hs]; exact fun hcon => MemoryStatus.noConfusion hcon)]
    rw [if_neg (not_lt.mpr hc)]
  · refine ⟨"### " ++ m.id ++ ": " ++ memoryTypeLabel m.type ++ " ",
      "\n**Confidence:** " ++ (percentString m.confidence.score ++ "%") ++
        (if m.reinforcement_count > 0 then
          " | reinforced " ++ toString m.reinforcement_count ++ "x" else "") ++
        " | **Source:** " ++ m.source ++
        "\n**Context:** " ++ m.context ++ "\n\n" ++ m.content, ?_⟩
    unfold formatMemory
    rw [hs]
    have hsplit : (" [CHALLENGED]" : String) = " " ++ "[CHALLENGED]" := rfl
    simp only [reduceCtorEq, if_true, if_pos, hsplit, String.append_assoc]

/-- A challenged demo memory for the inclusion witness. -/
def demoChallenged : Memory :=
  { id := "mem-003", type := .decision,
    content := "Chose the queue-based design.",
    context := "planning", source := "cross-check",
    confidence := { score := 0.5, reasoning := "contested by review" },
    reinforcement_count := 0, last_reinforced := "2025-03-01",
    created := "2025-03-01", tags := [], related_memories := [],
    status := .challenged }

/-- C10 witness: the challenged demo memory is included and tagged. -/
theorem challenged_included_witness :
    demoChallenged ∈ rankedMemories [demoChallenged] ∧
      ∃ pre post : String,
        formatMemory demoChallenged = pre ++ ("[CHALLENGED]" ++ post) :=
  challenged_included [demoChallenged] demoChallenged rfl
    (by with_unfolding_all decide) (by simp)

/-! ## Session state round trip (claim C5) -/

def sampleState : OrchestratorState :=
  { phase := "execution", taskIndex := 1, totalTasks := 3,
    planApproved := true, startedAt := "2025-03-01T10:00:00.000Z",
    lastUpdated := "2025-03-01T10:00:00.000Z" }

/-- C5 counterexample: `saveState` stamps `lastUpdated` with the save
time, so re-saving an unmodified loaded Session and reloading does not
return the Session first loaded — its `lastUpdated` changed. -/
theorem state_roundtrip_counterexample :
    loadState (saveState (loadState (some sampleState) "t")
        "2025-03-02T09:00:00.000Z") "t" ≠ loadState (some sampleState) "t" := by
  decide

/-- C5 (amended): the load–save–load round trip preserves every field
except `lastUpdated`, which `saveState` sets to the save time; the result
equals the loaded Session exactly when that timestamp already equals the
loaded `lastUpdated`. -/
theorem state_roundtrip (file : Option OrchestratorState) (now t1 t2 : String) :
    loadState (saveState (loadState file t1) now) t2 =
      { loadState file t1 with lastUpdated := now } ∧
    (loadState (saveState (loadState file t1) now) t2 = loadState file t1 ↔
      (loadState file t1).lastUpdated = now) := by
  refine ⟨rfl, ?_, ?_⟩
  · intro h
    rw [← h]
    rfl
  · intro h
    show loadState (some { loadState file t1 with lastUpdated := now }) t2 =
      loadState file t1
    generalize loadState file t1 = s at h ⊢
    obtain ⟨p, ti, tt, pa, st, lu⟩ := s
    simp only [OrchestratorState.lastUpdated] at h
    simp [loadState, h]

/-! ## Cross-check prompt independence (claim C9) -/

/-- C9: the cross-check prompt never reads the operating-rules document:
varying `CLAUDE.md` alone cannot change a single character of it, so the
review role shares no instruction context with the primary role (whose
planning prompt starts with that document). -/
theorem crosscheck_rules_independent (f : PromptFiles) (c1 c2 : String) :
    assembleCrossCheckPrompt { f with claudeMd := c1 } =
      assembleCrossCheckPrompt { f with claudeMd := c2 } := rfl

/-! ## Confidence update bounds (claim C4) -/

/-- C4 counterexample: at confidence 0 — inside `[0, 1)` — the
contradiction update returns 0 again, so it does not strictly decrease
confidence there. -/
theorem confidence_contradiction_counterexample :
    (0 : ℚ) ≤ 0 ∧ (0 : ℚ) < 1 ∧ contradictionUpdate 0 = 0 ∧
      ¬ contradictionUpdate 0 < 0 := by
  refine ⟨le_refl 0, by norm_num, ?_, ?_⟩
  · unfold contradictionUpdate
    ring
  · unfold contradictionUpdate
    norm_num

/-- C4 (amended): starting inside `[0, 1)`, any number of reinforcement
updates keeps confidence inside `[0, 1)`; the contradiction update
strictly decreases any positive confidence and never produces a negative
value. -/
theorem confidence_updates (c : ℚ) (h0 : 0 ≤ c) (h1 : c < 1) :
    (∀ n : ℕ, reinforceUpdate^[n] c < 1 ∧ 0 ≤ reinforceUpdate^[n] c)
    ∧ (0 < c → contradictionUpdate c < c)
    ∧ 0 ≤ contradictionUpdate c := by
  refine ⟨?_, ?_, ?_⟩
  · intro n
    induction n with
    | zero => exact ⟨h1, h0⟩
    | succ k ih =>
      rw [Function.iterate_succ_apply']
      obtain ⟨hk1, hk0⟩ := ih
      set x := reinforceUpdate^[k] c with hx
      have hstep : reinforceUpdate x = x + 0.1 * (1 - x) := rfl
      rw [hstep]
      constructor
      · nlinarith
      · nlinarith
  · intro hc
    unfold contradictionUpdate
    nlinarith
  · unfold contradictionUpdate
    nlinarith

/-- C4 witness: the bounds evaluated at confidence one half. -/
theorem confidence_updates_witness :
    reinforceUpdate^[2] (1/2 : ℚ) < 1 ∧
      contradictionUpdate (1/2 : ℚ) < 1/2 := by
  have h := confidence_updates (1/2 : ℚ) (by norm_num) (by norm_num)
  exact ⟨(h.1 2).1, h.2.1 (by norm_num)⟩

end Risral
